import Mathlib

/-!
Verification development for the bookshop unified import pipeline
(`book_shop_here/unified_import.py` and `book_shop_here/import_utils.py`).

The Python code is shallowly embedded: pure helpers become Lean functions,
the stateful error handler becomes explicit state passing, fallible code
returns `Except`/`Option`.  External library behaviour that the code relies
on (byte-codec decoding, the CSV sniffer, the tabular reader) is modelled
explicitly where its semantics matter and is taken as a parameter where the
repository treats it as an oracle (the sniffer result).
-/

namespace BookShop

/-! ## Python string helpers -/

/-- ASCII lower-casing of one character (Python `str.lower`; the import
pipeline only compares ASCII column names and tokens). -/
def lowerChar (c : Char) : Char :=
  if 65 ≤ c.toNat ∧ c.toNat ≤ 90 then Char.ofNat (c.toNat + 32) else c

/-- Python `s.lower()` (ASCII scope). -/
def pyLower (s : String) : String :=
  String.mk (s.toList.map lowerChar)

/-- Python `s.replace(a, b)` for single-character `a`, `b`. -/
def replaceChar (a b : Char) (s : String) : String :=
  String.mk (s.toList.map (fun c => if c == a then b else c))

/-- Python whitespace test (ASCII scope of `str.strip`). -/
def isPySpace (c : Char) : Bool :=
  c == ' ' || c == '\t' || c == '\n' || c == '\r' || c == '\x0b' || c == '\x0c'

/-- Python `s.strip()` (ASCII scope). -/
def pyStrip (s : String) : String :=
  String.mk (((s.toList.dropWhile isPySpace).reverse.dropWhile isPySpace).reverse)

/-- `leadsChars pat s` : `pat` is a leading segment of `s`. -/
def leadsChars : List Char → List Char → Bool
  | [], _ => true
  | _ :: _, [] => false
  | a :: as, b :: bs => a == b && leadsChars as bs

/-- `occursIn pat s` : `pat` occurs contiguously inside `s`
(Python `pat in s` on strings). -/
def occursIn : List Char → List Char → Bool
  | pat, [] => pat.isEmpty
  | pat, b :: bs => leadsChars pat (b :: bs) || occursIn pat bs

/-- Python `pat in s` for strings (substring containment). -/
def strContains (pat s : String) : Bool :=
  occursIn pat.toList s.toList

/-- Python `s.count(c)` for a single-character needle. -/
def countChar (c : Char) (s : String) : Nat :=
  (s.toList.filter (fun x => x == c)).length

/-! ## Sheet-type classifier (`UnifiedImportHandler._detect_sheet_type`)

The Python function receives a dataframe; only its column names matter.
It computes, for each candidate domain type, the number of signature
columns that occur as a substring of some supplied column, keeps the
types with a positive count together with `count / len(signature)`, and
takes the maximum with Python `max` semantics (first maximum in
insertion order wins).  The embedding returns the `(best_type,
confidence)` pair that the source computes internally (the source
returns only `best_type` and logs the confidence); `none` models the
source returning `None` ("unclassified"). -/

/-- Signature column patterns, in the declaration order of the source dict. -/
def patternList : List (String × List String) :=
  [("author", ["last_name", "first_name", "birth_year", "death_year"]),
   ("book", ["title", "cost", "suggested_retail_price", "condition"]),
   ("customer", ["first_name", "last_name", "phone_number", "mailing_address"]),
   ("employee", ["first_name", "last_name", "phone_number", "address", "group"]),
   ("order", ["customer", "employee", "sale_amount", "payment_method"])]

/-- `any(col in df_col for df_col in columns)` for one signature column. -/
def colMatches (pat : String) (columns : List String) : Bool :=
  columns.any (fun c => strContains pat c)

/-- `sum(1 for col in required_cols if any(col in df_col for df_col in columns))`. -/
def matchCount (req : List String) (columns : List String) : Nat :=
  (req.filter (fun p => colMatches p columns)).length

/-- `score / len(required_cols)` for one candidate type (exact rational
value of the Python float division; `mkRat m n = m / n`). -/
def typeConfidence (req : List String) (columns : List String) : ℚ :=
  mkRat (matchCount req columns) req.length

/-- The `scores` dict: candidate types with a positive match count, in
declaration order, paired with their confidence. -/
def sheetScores (columns : List String) : List (String × ℚ) :=
  patternList.filterMap (fun pr =>
    if 0 < matchCount pr.2 columns then some (pr.1, typeConfidence pr.2 columns)
    else none)

/-- One step of Python `max(..., key=...)`: the accumulator is replaced
only on a strictly greater key, so the first maximum wins. -/
def pyMaxStep (a y : String × ℚ) : String × ℚ :=
  if a.2 < y.2 then y else a

/-- Python `max(scores, key=lambda k: scores[k])` over a non-empty
association list, `none` on the empty one. -/
def pyMax : List (String × ℚ) → Option (String × ℚ)
  | [] => none
  | x :: xs => some (xs.foldl pyMaxStep x)

/-- `_detect_sheet_type`, exposing the internally computed confidence.
Columns are lower-cased first, as in the source. -/
def detectSheetType (rawCols : List String) : Option (String × ℚ) :=
  pyMax (sheetScores (rawCols.map pyLower))

/-! ## Workbook parser (`UnifiedImportHandler._parse_excel`)

A sheet is modelled post-reader: `pd.read_excel` either yields a
rectangular frame of string cells (`df.fillna("")` makes every cell a
string) or raises, which the source catches per sheet.  Sheet names in a
workbook are unique (the spreadsheet format guarantees it), so the
`sheets_data` dict is modelled as an ordered list. -/

/-- A parsed dataframe: column names and rows of string cells. -/
structure Frame where
  cols : List String
  rows : List (List String)
deriving DecidableEq

/-- pandas `df.empty`: some axis has length zero. -/
def frameEmpty (f : Frame) : Bool :=
  f.rows.isEmpty || f.cols.isEmpty

/-- `str(col).strip().lower().replace(" ", "_")`. -/
def cleanCol (s : String) : String :=
  replaceChar ' ' '_' (pyLower (pyStrip s))

/-- `df.replace(["nan", "NaN", "null", "NULL", "None"], "")` on one cell. -/
def replaceNullExcel (v : String) : String :=
  if v = "nan" ∨ v = "NaN" ∨ v = "null" ∨ v = "NULL" ∨ v = "None" then "" else v

/-- Column cleanup and null-token replacement applied per kept sheet. -/
def cleanFrame (f : Frame) : Frame :=
  { cols := f.cols.map cleanCol, rows := f.rows.map (fun r => r.map replaceNullExcel) }

/-- One record of `df.to_dict("records")`. -/
abbrev ImportRecord := List (String × String)

/-- `df.to_dict("records")`. -/
def frameRecords (f : Frame) : List ImportRecord :=
  f.rows.map (fun r => f.cols.zip r)

/-- One entry of `sheets_info`. -/
structure SheetInfo where
  name : String
  type : Option String
  rows : Nat
  columns : List String
deriving DecidableEq

/-- The dict returned by a parser: `sheets_info`, `data_by_type`, `errors`. -/
structure ParseOutcome where
  sheets_info : List SheetInfo
  data_by_type : List (String × List ImportRecord)
  errors : List String
deriving DecidableEq

/-- `data_by_type.setdefault(detected_type, []).extend(records)`:
append to the existing entry in place, else insert at the end. -/
def extendAt : List (String × List ImportRecord) → String → List ImportRecord →
    List (String × List ImportRecord)
  | [], t, rs => [(t, rs)]
  | (k, v) :: rest, t, rs =>
    if k = t then (k, v ++ rs) :: rest else (k, v) :: extendAt rest t rs

/-- The first loop of `_parse_excel`: a failing sheet appends one error
entry naming it, an empty sheet is skipped, a good sheet is cleaned and
kept. -/
def excelPhase1Step (acc : List (String × Frame) × List String)
    (s : String × Except String Frame) : List (String × Frame) × List String :=
  match s.2 with
  | Except.error msg =>
    (acc.1, acc.2 ++ ["Error parsing sheet \x27" ++ s.1 ++ "\x27: " ++ msg])
  | Except.ok df =>
    if frameEmpty df then acc else (acc.1 ++ [(s.1, cleanFrame df)], acc.2)

def excelPhase1 (sheets : List (String × Except String Frame)) :
    List (String × Frame) × List String :=
  sheets.foldl excelPhase1Step ([], [])

/-- The `sheet_info` dict built for one kept sheet. -/
def sheetInfoOf (nf : String × Frame) : SheetInfo :=
  { name := nf.1, type := (detectSheetType nf.2.cols).map Prod.fst,
    rows := nf.2.rows.length, columns := nf.2.cols }

/-- The second loop of `_parse_excel`: per kept sheet build its
`sheet_info` entry and, when a type was detected, extend that type's
record list. -/
def excelPhase2Step (acc : List SheetInfo × List (String × List ImportRecord))
    (nf : String × Frame) : List SheetInfo × List (String × List ImportRecord) :=
  let dbt := match detectSheetType nf.2.cols with
    | some tc => extendAt acc.2 tc.1 (frameRecords nf.2)
    | none => acc.2
  (acc.1 ++ [sheetInfoOf nf], dbt)

def excelPhase2 (sd : List (String × Frame)) :
    List SheetInfo × List (String × List ImportRecord) :=
  sd.foldl excelPhase2Step ([], [])

/-- `_parse_excel` on an already-opened workbook (`self.errors` starts
empty on a fresh handler; the result carries `errors.copy()`). -/
def parseExcel (sheets : List (String × Except String Frame)) : ParseOutcome :=
  { sheets_info := (excelPhase2 (excelPhase1 sheets).1).1,
    data_by_type := (excelPhase2 (excelPhase1 sheets).1).2,
    errors := (excelPhase1 sheets).2 }

/-- Proof-side characterization of phase 1: the kept, cleaned sheets. -/
def goodData (sheets : List (String × Except String Frame)) : List (String × Frame) :=
  sheets.filterMap (fun s =>
    match s.2 with
    | Except.ok df => if frameEmpty df then none else some (s.1, cleanFrame df)
    | Except.error _ => none)

/-- Proof-side characterization of phase 1: the per-sheet error strings. -/
def sheetErrors (sheets : List (String × Except String Frame)) : List String :=
  sheets.filterMap (fun s =>
    match s.2 with
    | Except.error msg => some ("Error parsing sheet \x27" ++ s.1 ++ "\x27: " ++ msg)
    | Except.ok _ => none)

/-- A sheet whose reader call does not raise. -/
def sheetOk (s : String × Except String Frame) : Prop :=
  ∃ f, s.2 = Except.ok f

/-! ## Byte-stream decoding (the encodings loop of `_parse_csv`)

The four codecs `utf-8`, `latin-1`, `iso-8859-1`, `cp1252` are modelled
with their real byte-level semantics ("latin-1" and "iso-8859-1" name the
same codec; `cp1252` differs from latin-1 only on bytes 0x80..0x9F). -/

/-- A UTF-8 continuation byte. -/
def isContByte (b : Nat) : Bool :=
  128 ≤ b && b < 192

/-- The 2-byte lead/continuation check (`0xC2 ≤ b` excludes overlong
forms and continuation bytes). -/
def utf8Cond2 (b b2 : Nat) : Bool :=
  194 ≤ b && isContByte b2

/-- The codepoint of a 2-byte sequence. -/
def utf8Cp2 (b b2 : Nat) : Nat :=
  (b - 192) * 64 + (b2 - 128)

/-- The codepoint of a 3-byte sequence. -/
def utf8Cp3 (b b2 b3 : Nat) : Nat :=
  (b - 224) * 4096 + (b2 - 128) * 64 + (b3 - 128)

/-- The 3-byte validity check: continuations, no overlong form
(`cp < 0x800`), no surrogate (`0xD800..0xDFFF`). -/
def utf8Cond3 (b b2 b3 : Nat) : Bool :=
  isContByte b2 && isContByte b3 && decide (2048 ≤ utf8Cp3 b b2 b3) &&
    !(decide (55296 ≤ utf8Cp3 b b2 b3) && decide (utf8Cp3 b b2 b3 ≤ 57343))

/-- The codepoint of a 4-byte sequence. -/
def utf8Cp4 (b b2 b3 b4 : Nat) : Nat :=
  (b - 240) * 262144 + (b2 - 128) * 4096 + (b3 - 128) * 64 + (b4 - 128)

/-- The 4-byte validity check: continuations and
`0x10000 ≤ cp ≤ 0x10FFFF`. -/
def utf8Cond4 (b b2 b3 b4 : Nat) : Bool :=
  isContByte b2 && isContByte b3 && isContByte b4 &&
    decide (65536 ≤ utf8Cp4 b b2 b3 b4) && decide (utf8Cp4 b b2 b3 b4 ≤ 1114111)

/-- Strict UTF-8 decoding (rejects overlong forms, surrogates and
codepoints beyond U+10FFFF, as Python `bytes.decode("utf-8")` does).
The list patterns enumerate how many bytes remain, so a multi-byte lead
with too few continuation bytes fails. -/
def utf8DecodeChars : List Nat → Option (List Char)
  | [] => some []
  | [b] =>
    if b < 128 then (utf8DecodeChars []).map (fun cs => Char.ofNat b :: cs) else none
  | [b, b2] =>
    if b < 128 then (utf8DecodeChars [b2]).map (fun cs => Char.ofNat b :: cs)
    else if b < 194 then none
    else if b < 224 then
      if utf8Cond2 b b2 then
        (utf8DecodeChars []).map (fun cs => Char.ofNat (utf8Cp2 b b2) :: cs)
      else none
    else none
  | [b, b2, b3] =>
    if b < 128 then (utf8DecodeChars [b2, b3]).map (fun cs => Char.ofNat b :: cs)
    else if b < 194 then none
    else if b < 224 then
      if utf8Cond2 b b2 then
        (utf8DecodeChars [b3]).map (fun cs => Char.ofNat (utf8Cp2 b b2) :: cs)
      else none
    else if b < 240 then
      if utf8Cond3 b b2 b3 then
        (utf8DecodeChars []).map (fun cs => Char.ofNat (utf8Cp3 b b2 b3) :: cs)
      else none
    else none
  | b :: b2 :: b3 :: b4 :: rest =>
    if b < 128 then
      (utf8DecodeChars (b2 :: b3 :: b4 :: rest)).map (fun cs => Char.ofNat b :: cs)
    else if b < 194 then none
    else if b < 224 then
      if utf8Cond2 b b2 then
        (utf8DecodeChars (b3 :: b4 :: rest)).map
          (fun cs => Char.ofNat (utf8Cp2 b b2) :: cs)
      else none
    else if b < 240 then
      if utf8Cond3 b b2 b3 then
        (utf8DecodeChars (b4 :: rest)).map
          (fun cs => Char.ofNat (utf8Cp3 b b2 b3) :: cs)
      else none
    else if b < 245 then
      if utf8Cond4 b b2 b3 b4 then
        (utf8DecodeChars rest).map (fun cs => Char.ofNat (utf8Cp4 b b2 b3 b4) :: cs)
      else none
    else none

/-- A byte decoder: `none` models a `UnicodeDecodeError`. -/
abbrev Codec := List Nat → Option String

def utf8Codec : Codec := fun bs => (utf8DecodeChars bs).map String.mk

/-- Latin-1 maps every byte to the codepoint of the same value. -/
def latin1Codec : Codec := fun bs =>
  if bs.all (fun b => b < 256) then some (String.mk (bs.map Char.ofNat)) else none

/-- "iso-8859-1" is an alias of "latin-1" in Python's codec registry. -/
def iso88591Codec : Codec := latin1Codec

/-- One byte of cp1252: latin-1 outside 0x80..0x9F, a table inside it,
five undefined bytes. -/
def cp1252Char (b : Nat) : Option Char :=
  if b < 128 ∨ (160 ≤ b ∧ b < 256) then some (Char.ofNat b)
  else if b = 128 then some (Char.ofNat 8364)
  else if b = 130 then some (Char.ofNat 8218)
  else if b = 131 then some (Char.ofNat 402)
  else if b = 132 then some (Char.ofNat 8222)
  else if b = 133 then some (Char.ofNat 8230)
  else if b = 134 then some (Char.ofNat 8224)
  else if b = 135 then some (Char.ofNat 8225)
  else if b = 136 then some (Char.ofNat 710)
  else if b = 137 then some (Char.ofNat 8240)
  else if b = 138 then some (Char.ofNat 352)
  else if b = 139 then some (Char.ofNat 8249)
  else if b = 140 then some (Char.ofNat 338)
  else if b = 142 then some (Char.ofNat 381)
  else if b = 145 then some (Char.ofNat 8216)
  else if b = 146 then some (Char.ofNat 8217)
  else if b = 147 then some (Char.ofNat 8220)
  else if b = 148 then some (Char.ofNat 8221)
  else if b = 149 then some (Char.ofNat 8226)
  else if b = 150 then some (Char.ofNat 8211)
  else if b = 151 then some (Char.ofNat 8212)
  else if b = 152 then some (Char.ofNat 732)
  else if b = 153 then some (Char.ofNat 8482)
  else if b = 154 then some (Char.ofNat 353)
  else if b = 155 then some (Char.ofNat 8250)
  else if b = 156 then some (Char.ofNat 339)
  else if b = 158 then some (Char.ofNat 382)
  else if b = 159 then some (Char.ofNat 376)
  else none

def cp1252Codec : Codec := fun bs =>
  (bs.mapM cp1252Char).map String.mk

/-- `encodings = ["utf-8", "latin-1", "iso-8859-1", "cp1252"]`. -/
def csvEncodings : List Codec :=
  [utf8Codec, latin1Codec, iso88591Codec, cp1252Codec]

/-- The decode loop: first codec that decodes without error, in order. -/
def tryDecode : List Codec → List Nat → Option String
  | [], _ => none
  | c :: cs, content =>
    match c content with
    | some s => some s
    | none => tryDecode cs content

/-- The decode stage of `_parse_csv`: the loop followed by
`if not decoded_content: raise ValueError(...)` — Python falsiness, so a
successfully decoded empty text also raises. -/
def decodeCsvContent (content : List Nat) : Except String String :=
  match tryDecode csvEncodings content with
  | some s =>
    if s = "" then Except.error "Could not decode CSV file with common encodings"
    else Except.ok s
  | none => Except.error "Could not decode CSV file with common encodings"

/-! ## Delimited-text parser (`UnifiedImportHandler._parse_csv`)

The `csv.Sniffer` is an external oracle: its outcome is a parameter
(`some c` = sniffed delimiter `c`, `none` = the sniffer raised).  The
tabular reader is modelled for quote-free well-formed input, the shape on
which the claims operate; the source's fallback branch for a raising
`pd.read_csv` is unreachable in the model. -/

/-- A line-break character as recognised by Python `str.splitlines`. -/
def isLineBreak (c : Char) : Bool :=
  c == '\n' || c == '\r' || c.toNat == 11 || c.toNat == 12 || c.toNat == 28 ||
    c.toNat == 29 || c.toNat == 30 || c.toNat == 133 || c.toNat == 8232 ||
    c.toNat == 8233

/-- `decoded_content.splitlines()[0] if decoded_content else ""`. -/
def headerLine (decoded : String) : String :=
  if decoded = "" then ""
  else String.mk (decoded.toList.takeWhile (fun c => !isLineBreak c))

/-- The delimiter choice of `_parse_csv`: the sniffer result (comma when
sniffing raised), overridden to semicolon when the header line holds
strictly more semicolons than commas. -/
def chooseDelimiter (sniffed : Option Char) (decoded : String) : Char :=
  let d := match sniffed with
    | some c => c
    | none => ','
  if countChar ',' (headerLine decoded) < countChar ';' (headerLine decoded) then ';'
  else d

/-- Python `str.splitlines` (`\r\n` counts as one break, no trailing
empty line). -/
def splitLinesAux : List Char → List Char → List String
  | [], acc => if acc.isEmpty then [] else [String.mk acc.reverse]
  | '\r' :: '\n' :: cs, acc => String.mk acc.reverse :: splitLinesAux cs []
  | c :: cs, acc =>
    if isLineBreak c then String.mk acc.reverse :: splitLinesAux cs []
    else splitLinesAux cs (c :: acc)

def pySplitlines (s : String) : List String :=
  splitLinesAux s.toList []

/-- Split one line on the delimiter (quote-free scope). -/
def splitFieldAux : Char → List Char → List Char → List String
  | _, [], acc => [String.mk acc.reverse]
  | d, c :: cs, acc =>
    if c == d then String.mk acc.reverse :: splitFieldAux d cs []
    else splitFieldAux d cs (c :: acc)

def splitField (d : Char) (s : String) : List String :=
  splitFieldAux d s.toList []

/-- Model of `pd.read_csv` on quote-free input: the first non-blank line
is the header, each further non-blank line is one row (pandas skips blank
lines).  `none` models `EmptyDataError`, on which the source's fallback
reader raises "Empty CSV file". -/
def csvRead (delim : Char) (decoded : String) : Option Frame :=
  match (pySplitlines decoded).filter (fun l => l ≠ "") with
  | [] => none
  | h :: rest =>
    some { cols := splitField delim h, rows := rest.map (splitField delim) }

/-- `df.replace(["nan", "NaN", "null", "NULL", "None", "N/A"], "")` on
one cell (the CSV token list additionally holds "N/A"). -/
def replaceNullCsv (v : String) : String :=
  if v = "nan" ∨ v = "NaN" ∨ v = "null" ∨ v = "NULL" ∨ v = "None" ∨ v = "N/A" then ""
  else v

def cleanFrameCsv (f : Frame) : Frame :=
  { cols := f.cols.map cleanCol, rows := f.rows.map (fun r => r.map replaceNullCsv) }

/-- `max(type_scores, key=...)` over Nat scores, first maximum wins. -/
def pyMaxStepN (a y : String × Nat) : String × Nat :=
  if a.2 < y.2 then y else a

def pyMaxN : List (String × Nat) → Option (String × Nat)
  | [] => none
  | x :: xs => some (xs.foldl pyMaxStepN x)

/-- `_detect_csv_type`: the weighted scoring over exact membership and
substring signals, in the declaration order of the `type_scores` dict. -/
def detectCsvType (rawCols : List String) : Option String :=
  let columns := rawCols.map pyLower
  let has := fun (c : String) => columns.contains c
  let anyHas := fun (pats : List String) =>
    columns.any (fun col => pats.any (fun p => strContains p col))
  let lastFirst := has "last_name" && has "first_name"
  let birthOrDeath := has "birth_year" || has "death_year"
  let authorScore :=
    (if anyHas ["author", "birth", "death"] then 2 else 0) +
    (if lastFirst && birthOrDeath then 3 else 0)
  let bookScore :=
    (if anyHas ["title", "isbn", "publisher"] then 2 else 0) +
    (if has "title" && (has "cost" || has "price") then 3 else 0)
  let customerScore :=
    (if anyHas ["customer"] then 2 else 0) +
    (if lastFirst && !birthOrDeath && !has "hire_date" && has "mailing_address"
     then 3 else 0)
  let employeeScore :=
    (if has "hire_date" || has "group" then 4 else 0) +
    (if has "employee" && (has "hire_date" || has "group" || has "email")
     then 2 else 0) +
    (if lastFirst && !birthOrDeath && has "hire_date" then 3 else 0)
  let orderScore :=
    (if has "payment_method" || has "sale_amount" then 5 else 0) +
    (if anyHas ["order", "payment"] then 2 else 0)
  match pyMaxN [("author", authorScore), ("book", bookScore),
      ("customer", customerScore), ("employee", employeeScore),
      ("order", orderScore)] with
  | some ts => if 0 < ts.2 then some ts.1 else none
  | none => none

/-- `_parse_csv` on the raw byte content, with the sniffer outcome as a
parameter.  `Except.error` models the dict `{"error": message}` built by
the surrounding `except` clause. -/
def parseCsv (sniffed : Option Char) (content : List Nat) : Except String ParseOutcome :=
  match decodeCsvContent content with
  | Except.error e => Except.error ("Error parsing CSV: " ++ e)
  | Except.ok decoded =>
    let delimiter := chooseDelimiter sniffed decoded
    match csvRead delimiter decoded with
    | none => Except.error "Error parsing CSV: Empty CSV file"
    | some df0 =>
      let df := cleanFrameCsv df0
      let dt := detectCsvType df.cols
      Except.ok
        { sheets_info :=
            [{ name := "CSV Data", type := dt, rows := df.rows.length,
               columns := df.cols }],
          data_by_type := (match dt with
            | some t => [(t, frameRecords df)]
            | none => []),
          errors := [] }

/-! ## Value normalizer (`import_utils.clean_value`)

Scalar cell values are a closed sum; `vnone` is the null sentinel
(Python `None`).  Python `int()` and `Decimal()` are modelled on their
ASCII grammar, including the underscore-between-digits rule and the
special values Infinity/NaN/sNaN.  The integer branch of `clean_value`
catches only `(ValueError, TypeError)`, so the `OverflowError` raised by
`int()` on an infinite `Decimal` or `float` escapes the function: the
embedding returns `Except`, with `Except.error` modelling that uncaught
exception (the decimal branch catches bare `Exception`, so it never
propagates anything). -/

/-- A Python `Decimal` value. -/
inductive DecVal where
  | num (q : ℚ)
  | inf (neg : Bool)
  | nan
  | snan
deriving DecidableEq

/-- A Python `float`: a finite float is identified with its exact
rational value (every binary float is a dyadic rational). -/
inductive FloatVal where
  | num (q : ℚ)
  | inf (neg : Bool)
  | nan
deriving DecidableEq

/-- A scalar value as handled by `clean_value`. -/
inductive PyVal where
  | vnone
  | vstr (s : String)
  | vint (n : ℤ)
  | vbool (b : Bool)
  | vdec (d : DecVal)
  | vfloat (f : FloatVal)
deriving DecidableEq

/-- Remove underscores that sit between two digits; any other underscore
makes the numeric literal invalid (Python's rule for `int`/`Decimal`). -/
def stripUndersAux : Option Char → List Char → Option (List Char)
  | _, [] => some []
  | prev, '_' :: cs =>
    match prev, cs with
    | some p, c :: _ =>
      if p.isDigit && c.isDigit then stripUndersAux (some '_') cs else none
    | _, _ => none
  | _, c :: cs => (stripUndersAux (some c) cs).map (fun l => c :: l)

def stripUnders (l : List Char) : Option (List Char) :=
  stripUndersAux none l

/-- Digits to a number, `none` on the empty list or a non-digit. -/
def digitsToNat : List Char → Option Nat
  | [] => none
  | l =>
    if l.all Char.isDigit then
      some (l.foldl (fun acc c => acc * 10 + (c.toNat - 48)) 0)
    else none

/-- Python `int(s)` for a string (ASCII scope): surrounding whitespace,
optional sign, digits with legally placed underscores. -/
def pyIntOfString (s : String) : Option ℤ :=
  match stripUnders (pyStrip s).toList with
  | none => none
  | some l =>
    match l with
    | '+' :: rest => (digitsToNat rest).map (fun n => (n : ℤ))
    | '-' :: rest => (digitsToNat rest).map (fun n => -(n : ℤ))
    | rest => (digitsToNat rest).map (fun n => (n : ℤ))

/-- The outcome of Python `int(value)`: a value; an exception that the
`except (ValueError, TypeError)` clause of `clean_value`'s integer
branch catches (`ValueError` from a bad string or NaN, `TypeError` from
`None`); or the `OverflowError` that `int()` raises on an infinite
`Decimal`/`float`, which that clause does NOT catch. -/
inductive IntCoerce where
  | ok (n : ℤ)
  | caught
  | overflow (msg : String)
deriving DecidableEq

/-- Python `int(value)` (truncation toward zero for `Decimal`/`float`). -/
def pyIntOf : PyVal → IntCoerce
  | PyVal.vstr s =>
    match pyIntOfString s with
    | some n => IntCoerce.ok n
    | none => IntCoerce.caught
  | PyVal.vint n => IntCoerce.ok n
  | PyVal.vbool b => IntCoerce.ok (if b then 1 else 0)
  | PyVal.vdec (DecVal.num q) => IntCoerce.ok (q.num.tdiv (q.den : ℤ))
  | PyVal.vdec (DecVal.inf _) => IntCoerce.overflow "cannot convert Infinity to integer"
  | PyVal.vdec DecVal.nan => IntCoerce.caught
  | PyVal.vdec DecVal.snan => IntCoerce.caught
  | PyVal.vfloat (FloatVal.num q) => IntCoerce.ok (q.num.tdiv (q.den : ℤ))
  | PyVal.vfloat (FloatVal.inf _) =>
    IntCoerce.overflow "cannot convert float infinity to integer"
  | PyVal.vfloat FloatVal.nan => IntCoerce.caught
  | PyVal.vnone => IntCoerce.caught

/-- The numeric part of the `Decimal` grammar after the sign:
`digits [. digits] [(e|E) [sign] digits]`, at least one digit before the
exponent. -/
def parseDecBody (body : List Char) : Option (Nat × Nat × ℤ) :=
  let ip := body.takeWhile Char.isDigit
  let r1 := body.dropWhile Char.isDigit
  let fpr : List Char × List Char :=
    match r1 with
    | '.' :: rest => (rest.takeWhile Char.isDigit, rest.dropWhile Char.isDigit)
    | _ => ([], r1)
  let fp := fpr.1
  let r2 := fpr.2
  if ip.isEmpty ∧ fp.isEmpty then none
  else
    let mant := (ip ++ fp).foldl (fun acc c => acc * 10 + (c.toNat - 48)) 0
    match r2 with
    | [] => some (mant, fp.length, 0)
    | e :: rest =>
      if lowerChar e == 'e' then
        match rest with
        | '+' :: ds => (digitsToNat ds).map (fun n => (mant, fp.length, (n : ℤ)))
        | '-' :: ds => (digitsToNat ds).map (fun n => (mant, fp.length, -(n : ℤ)))
        | ds => (digitsToNat ds).map (fun n => (mant, fp.length, (n : ℤ)))
      else none

/-- Python `Decimal(s)` (ASCII scope): surrounding whitespace, optional
sign, then a numeric literal or one of the special forms
`inf`/`infinity`/`nan[digits]`/`snan[digits]`, case-insensitively. -/
def pyDecimalOfString (s : String) : Option DecVal :=
  match stripUnders (pyStrip s).toList with
  | none => none
  | some l =>
    let sb : Bool × List Char :=
      match l with
      | '+' :: rest => (false, rest)
      | '-' :: rest => (true, rest)
      | rest => (false, rest)
    let neg := sb.1
    let body := sb.2
    let low := body.map lowerChar
    if low = "inf".toList ∨ low = "infinity".toList then some (DecVal.inf neg)
    else if low.take 3 = "nan".toList ∧ (low.drop 3).all Char.isDigit then
      some DecVal.nan
    else if low.take 4 = "snan".toList ∧ (low.drop 4).all Char.isDigit then
      some DecVal.snan
    else
      (parseDecBody body).map (fun mse =>
        let m : ℤ := if neg then -(mse.1 : ℤ) else (mse.1 : ℤ)
        let d : ℤ := mse.2.2 - (mse.2.1 : ℤ)
        if 0 ≤ d then DecVal.num ((m * 10 ^ d.toNat : ℤ) : ℚ)
        else DecVal.num (mkRat m (10 ^ (-d).toNat)))

/-- Python `Decimal(str(value))`.  For a finite float, `str` prints the
shortest round-tripping decimal; that rounding is not modelled (no
theorem inspects the digits), the finite value is carried through. -/
def pyDecimalOf : PyVal → Option DecVal
  | PyVal.vstr s => pyDecimalOfString s
  | PyVal.vint n => some (DecVal.num n)
  | PyVal.vbool _ => none
  | PyVal.vdec d => some d
  | PyVal.vfloat (FloatVal.num q) => some (DecVal.num q)
  | PyVal.vfloat (FloatVal.inf b) => some (DecVal.inf b)
  | PyVal.vfloat FloatVal.nan => some DecVal.nan
  | PyVal.vnone => none

/-- Python truthiness of a `Decimal` (`NaN` and infinities are truthy). -/
def pyTruthyDec : DecVal → Bool
  | DecVal.num q => q ≠ 0
  | DecVal.inf _ => true
  | DecVal.nan => true
  | DecVal.snan => true

/-- Python truthiness of a `float` (`NaN` and infinities are truthy). -/
def pyTruthyFloat : FloatVal → Bool
  | FloatVal.num q => q ≠ 0
  | FloatVal.inf _ => true
  | FloatVal.nan => true

/-- The null-like token set of `clean_value`. -/
def nullTokens : List String := ["null", "none", "nan", "n/a", "#n/a"]

/-- The type-specific tail of `clean_value` (integer / decimal / boolean
coercion; any other declared type returns the value unchanged).  In the
integer branch a `caught` coercion outcome degrades to the null sentinel
while an `overflow` outcome escapes the `except (ValueError, TypeError)`
clause and propagates (`Except.error`); the decimal branch catches every
exception. -/
def typedClean (v : PyVal) (fieldType : String) : Except String PyVal :=
  if fieldType = "integer" then
    match v with
    | PyVal.vstr "" => Except.ok PyVal.vnone
    | _ =>
      match pyIntOf v with
      | IntCoerce.ok n => Except.ok (PyVal.vint n)
      | IntCoerce.caught => Except.ok PyVal.vnone
      | IntCoerce.overflow msg => Except.error msg
  else if fieldType = "decimal" then
    match v with
    | PyVal.vstr "" => Except.ok PyVal.vnone
    | _ =>
      match pyDecimalOf v with
      | some d => Except.ok (PyVal.vdec d)
      | none => Except.ok PyVal.vnone
  else if fieldType = "boolean" then
    match v with
    | PyVal.vbool b => Except.ok (PyVal.vbool b)
    | PyVal.vstr s =>
      Except.ok (PyVal.vbool (["true", "yes", "1", "t", "y"].contains (pyLower s)))
    | PyVal.vint n => Except.ok (PyVal.vbool (n ≠ 0))
    | PyVal.vdec d => Except.ok (PyVal.vbool (pyTruthyDec d))
    | PyVal.vfloat f => Except.ok (PyVal.vbool (pyTruthyFloat f))
    | PyVal.vnone => Except.ok (PyVal.vbool false)
  else Except.ok v

/-- `clean_value`; `Except.ok` is a normal return, `Except.error` the
uncaught `OverflowError` of the integer branch. -/
def cleanValue (value : PyVal) (fieldType : String) : Except String PyVal :=
  match value with
  | PyVal.vnone => Except.ok PyVal.vnone
  | PyVal.vstr s0 =>
    let s := pyStrip s0
    if nullTokens.contains (pyLower s) then Except.ok PyVal.vnone
    else if s = "" then
      if fieldType = "number" ∨ fieldType = "decimal" ∨ fieldType = "integer" then
        Except.ok PyVal.vnone
      else Except.ok (PyVal.vstr "")
    else typedClean (PyVal.vstr s) fieldType
  | v => typedClean v fieldType

/-! ## XML element flattening (`_xml_element_to_dict`)

Elements carry a tag, attributes in document order, child elements and
optional text.  The Python dict is an ordered association list whose
assignment overwrites in place. -/

inductive XmlElem where
  | mk (tag : String) (attrs : List (String × String)) (children : List XmlElem)
       (text : Option String)

def XmlElem.tag : XmlElem → String
  | XmlElem.mk t _ _ _ => t

def XmlElem.attrs : XmlElem → List (String × String)
  | XmlElem.mk _ a _ _ => a

def XmlElem.children : XmlElem → List XmlElem
  | XmlElem.mk _ _ c _ => c

def XmlElem.text : XmlElem → Option String
  | XmlElem.mk _ _ _ t => t

/-- A flattened field value: a string or a nested record. -/
inductive FlatVal where
  | str (v : String)
  | node (fields : List (String × FlatVal))

/-- `key.lower().replace("-", "_")`. -/
def normKey (k : String) : String :=
  replaceChar '-' '_' (pyLower k)

/-- `result[key] = value` on an ordered dict: overwrite in place, else
append. -/
def dictInsert : List (String × FlatVal) → String → FlatVal → List (String × FlatVal)
  | [], k, v => [(k, v)]
  | (k', v') :: rest, k, v =>
    if k' = k then (k', v) :: rest else (k', v') :: dictInsert rest k v

def insertAll (base : List (String × FlatVal)) (pairs : List (String × FlatVal)) :
    List (String × FlatVal) :=
  pairs.foldl (fun acc p => dictInsert acc p.1 p.2) base

/-- `value.strip()`, with null-like text ("null"/"none"/"nil")
collapsing to the empty string. -/
def cleanChildText (s : String) : String :=
  let t := pyStrip s
  if pyLower t = "null" ∨ pyLower t = "none" ∨ pyLower t = "nil" then "" else t

mutual

/-- `_xml_element_to_dict`: attributes first (keys normalized), then one
field per child (text children cleaned, element children recursed), and
the `{"value": text}` fallback for a childless, attribute-less element
with text. -/
def xmlElementToDict : XmlElem → List (String × FlatVal)
  | XmlElem.mk _ attrs children text =>
    let base := insertAll []
      (attrs.map (fun kv => (normKey kv.1, FlatVal.str kv.2)))
    let r := insertAll base (childPairs children)
    if r.isEmpty then
      match text with
      | some t => if t ≠ "" then [("value", FlatVal.str (pyStrip t))] else []
      | none => []
    else r

/-- The `for child in element` loop: one `(key, value)` pair per child. -/
def childPairs : List XmlElem → List (String × FlatVal)
  | [] => []
  | c :: cs =>
    (normKey c.tag,
      if c.children.isEmpty then FlatVal.str (cleanChildText (c.text.getD ""))
      else FlatVal.node (xmlElementToDict c)) :: childPairs cs

end

/-! ## Error accumulator (`import_utils.ImportErrorHandler`)

The mutable instance becomes explicit state; a run of method calls is a
list of operations applied in order. -/

structure ErrEntry where
  row : ℤ
  field : String
  message : String
  type : String
deriving DecidableEq

structure ImportErrorHandler where
  errors : List ErrEntry
  warnings : List ErrEntry
  success_count : Nat
  failed_count : Nat
deriving DecidableEq

/-- `__init__` (and the state `clear()` resets to). -/
def initHandler : ImportErrorHandler :=
  { errors := [], warnings := [], success_count := 0, failed_count := 0 }

def addError (h : ImportErrorHandler) (row : ℤ) (field message : String) :
    ImportErrorHandler :=
  { h with
    errors := h.errors ++
      [{ row := row, field := field, message := message, type := "error" }],
    failed_count := h.failed_count + 1 }

def addWarning (h : ImportErrorHandler) (row : ℤ) (field message : String) :
    ImportErrorHandler :=
  { h with
    warnings := h.warnings ++
      [{ row := row, field := field, message := message, type := "warning" }] }

def recordSuccess (h : ImportErrorHandler) : ImportErrorHandler :=
  { h with success_count := h.success_count + 1 }

def clearHandler (_h : ImportErrorHandler) : ImportErrorHandler :=
  initHandler

structure Summary where
  total_processed : Nat
  successful : Nat
  failed : Nat
  errors : List ErrEntry
  warnings : List ErrEntry
  has_errors : Bool
deriving DecidableEq

def getSummary (h : ImportErrorHandler) : Summary :=
  { total_processed := h.success_count + h.failed_count,
    successful := h.success_count,
    failed := h.failed_count,
    errors := h.errors,
    warnings := h.warnings,
    has_errors := 0 < h.errors.length }

/-- One method call on the handler. -/
inductive HandlerOp where
  | opError (row : ℤ) (field message : String)
  | opWarning (row : ℤ) (field message : String)
  | opSuccess
deriving DecidableEq

def applyOp (h : ImportErrorHandler) : HandlerOp → ImportErrorHandler
  | HandlerOp.opError row field message => addError h row field message
  | HandlerOp.opWarning row field message => addWarning h row field message
  | HandlerOp.opSuccess => recordSuccess h

def applyOps (h : ImportErrorHandler) (ops : List HandlerOp) : ImportErrorHandler :=
  ops.foldl applyOp h

def isOpError : HandlerOp → Bool
  | HandlerOp.opError _ _ _ => true
  | _ => false

def isOpSuccess : HandlerOp → Bool
  | HandlerOp.opSuccess => true
  | _ => false

/-- ASCII bytes of an ASCII string (used for concrete inputs). -/
def asciiBytes (s : String) : List Nat :=
  s.toList.map Char.toNat

/-! # Theorems -/

/-! ## Classifier lemmas -/

theorem typeConfidence_eq_div (req columns : List String) :
    typeConfidence req columns = (matchCount req columns : ℚ) / (req.length : ℚ) := by
  rw [typeConfidence, Rat.mkRat_eq_divInt, Rat.divInt_eq_div]
  push_cast
  ring

theorem colMatches_mono {p : String} {cols cols' : List String}
    (h : ∀ c ∈ cols, c ∈ cols') (hm : colMatches p cols = true) :
    colMatches p cols' = true := by
  simp only [colMatches, List.any_eq_true] at hm ⊢
  obtain ⟨c, hc, hsub⟩ := hm
  exact ⟨c, h c hc, hsub⟩

theorem matchCount_mono (req : List String) {cols cols' : List String}
    (h : ∀ c ∈ cols, c ∈ cols') :
    matchCount req cols ≤ matchCount req cols' :=
  (List.monotone_filter_right req (fun _ => colMatches_mono h)).length_le

theorem typeConfidence_mono (req : List String) {cols cols' : List String}
    (h : ∀ c ∈ cols, c ∈ cols') :
    typeConfidence req cols ≤ typeConfidence req cols' := by
  rw [typeConfidence_eq_div, typeConfidence_eq_div]
  rcases Nat.eq_zero_or_pos req.length with h0 | hpos
  · simp [h0]
  · have hm : (matchCount req cols : ℚ) ≤ (matchCount req cols' : ℚ) := by
      exact_mod_cast matchCount_mono req h
    gcongr

theorem pyMaxStep_left (a y : String × ℚ) : a.2 ≤ (pyMaxStep a y).2 := by
  rw [pyMaxStep]
  split
  · exact le_of_lt (by assumption)
  · exact le_refl _

theorem pyMaxStep_right (a y : String × ℚ) : y.2 ≤ (pyMaxStep a y).2 := by
  rw [pyMaxStep]
  split
  · exact le_refl _
  · exact le_of_not_lt (by assumption)

/-- Python `max` over a fold: the result bounds every element, and it is
the first element attaining the maximum (everything strictly before it is
strictly smaller). -/
theorem foldl_pyMaxStep_spec (xs : List (String × ℚ)) (a : String × ℚ) :
    (∀ y ∈ a :: xs, y.2 ≤ (xs.foldl pyMaxStep a).2) ∧
    (xs.foldl pyMaxStep a = a ∨
      ∃ l1 l2, xs = l1 ++ (xs.foldl pyMaxStep a) :: l2 ∧
        ∀ y ∈ a :: l1, y.2 < (xs.foldl pyMaxStep a).2) := by
  induction xs generalizing a with
  | nil =>
    refine ⟨?_, Or.inl rfl⟩
    intro y hy
    rcases List.mem_cons.mp hy with h | h
    · subst h; exact le_refl _
    · cases h
  | cons y ys ih =>
    obtain ⟨ih1, ih2⟩ := ih (pyMaxStep a y)
    have hr : (y :: ys).foldl pyMaxStep a = ys.foldl pyMaxStep (pyMaxStep a y) := rfl
    rw [hr]
    set r := ys.foldl pyMaxStep (pyMaxStep a y) with hrdef
    have hstep_le : (pyMaxStep a y).2 ≤ r.2 := ih1 _ (List.mem_cons_self _ _)
    have ha_le : a.2 ≤ r.2 := le_trans (pyMaxStep_left a y) hstep_le
    have hy_le : y.2 ≤ r.2 := le_trans (pyMaxStep_right a y) hstep_le
    constructor
    · intro z hz
      rcases List.mem_cons.mp hz with h | hz'
      · rw [h]; exact ha_le
      · rcases List.mem_cons.mp hz' with h | hz''
        · rw [h]; exact hy_le
        · exact ih1 z (List.mem_cons_of_mem _ hz'')
    · rcases ih2 with heq | ⟨l1, l2, hsplit, hlt⟩
      · rw [pyMaxStep] at heq
        split at heq
        · refine Or.inr ⟨[], ys, ?_, ?_⟩
          · rw [heq]
            rfl
          · intro z hz
            rcases List.mem_cons.mp hz with h | h
            · rw [h, heq]
              assumption
            · cases h
        · exact Or.inl heq
      · refine Or.inr ⟨y :: l1, l2, ?_, ?_⟩
        · rw [hsplit]
          rfl
        · intro z hz
          have hstep_lt : (pyMaxStep a y).2 < r.2 := hlt _ (List.mem_cons_self _ _)
          rcases List.mem_cons.mp hz with h | hz'
          · rw [h]; exact lt_of_le_of_lt (pyMaxStep_left a y) hstep_lt
          · rcases List.mem_cons.mp hz' with h | hz''
            · rw [h]; exact lt_of_le_of_lt (pyMaxStep_right a y) hstep_lt
            · exact hlt z (List.mem_cons_of_mem _ hz'')

theorem detectSheetType_max_first {rawCols : List String} {t : String} {c : ℚ}
    (h : detectSheetType rawCols = some (t, c)) :
    (∀ y ∈ sheetScores (rawCols.map pyLower), y.2 ≤ c) ∧
    ∃ l1 l2, sheetScores (rawCols.map pyLower) = l1 ++ (t, c) :: l2 ∧
      ∀ y ∈ l1, y.2 < c := by
  rw [detectSheetType] at h
  rcases hsl : sheetScores (rawCols.map pyLower) with _ | ⟨x, xs⟩
  · rw [hsl] at h
    cases h
  · rw [hsl] at h
    rw [pyMax] at h
    have hfold : xs.foldl pyMaxStep x = (t, c) := by
      injection h
    obtain ⟨h1, h2⟩ := foldl_pyMaxStep_spec xs x
    rw [hfold] at h1 h2
    constructor
    · intro y hy
      exact h1 y hy
    · rcases h2 with heq | ⟨l1, l2, hsplit, hlt⟩
      · refine ⟨[], xs, ?_, ?_⟩
        · rw [heq]
          rfl
        · intro y hy
          cases hy
      · refine ⟨x :: l1, l2, ?_, ?_⟩
        · rw [hsplit]
          rfl
        · intro y hy
          exact hlt y hy

/-! ## Claim C1 -/

/-- C1: the classifier is deterministic on column sets — the author
signature columns give ("author", 1.0), the book signature columns give
("book", 1.0), and {foo, bar} matches no signature column of any type, so
the classifier returns the unclassified result (`none`). -/
theorem claim_c1 :
    detectSheetType ["last_name", "first_name", "birth_year", "death_year"] =
        some ("author", 1) ∧
    detectSheetType ["title", "cost", "suggested_retail_price", "condition"] =
        some ("book", 1) ∧
    detectSheetType ["foo", "bar"] = none :=
  ⟨by decide, by decide, by decide⟩

/-! ## Claim C5 -/

/-- C5: classification confidence is monotonic in the matching-column
count divided by the signature size (growing the column set never lowers
any type's confidence), and the classifier returns the first maximum of
the scores list, which is ordered by the declaration order author, book,
customer, employee, order: every candidate earlier in that order than the
returned type has a strictly smaller confidence, so a tie at the maximum
is resolved in favour of the earliest declared type. -/
theorem claim_c5 :
    (∀ (req cols cols' : List String), (∀ col ∈ cols, col ∈ cols') →
      typeConfidence req cols ≤ typeConfidence req cols') ∧
    (∀ (rawCols : List String) (t : String) (c : ℚ),
      detectSheetType rawCols = some (t, c) →
      (∀ y ∈ sheetScores (rawCols.map pyLower), y.2 ≤ c) ∧
      ∃ l1 l2, sheetScores (rawCols.map pyLower) = l1 ++ (t, c) :: l2 ∧
        ∀ y ∈ l1, y.2 < c) :=
  ⟨fun req _ _ h => typeConfidence_mono req h,
   fun _ _ _ h => detectSheetType_max_first h⟩

/-- Witness for C5: adding the column "cost" to a sheet holding only
"title" does not lower the book confidence, and on the tied column set
{last_name, first_name} (author and customer both score 2/4, the maximum)
the classifier returns "author", which bounds the employee score 2/5. -/
theorem claim_c5_witness :
    typeConfidence ["title", "cost", "suggested_retail_price", "condition"] ["title"] ≤
      typeConfidence ["title", "cost", "suggested_retail_price", "condition"]
        ["title", "cost"] ∧
    (mkRat 2 5 : ℚ) ≤ mkRat 2 4 :=
  ⟨claim_c5.1 _ _ _ (by decide),
   (claim_c5.2 ["last_name", "first_name"] "author" (mkRat 2 4) (by decide)).1
     ("employee", mkRat 2 5) (by decide)⟩

/-! ## Claim C3 -/

/-- C3: the CSV delimiter is semicolon whenever the header line holds
strictly more semicolons than commas, whatever the sniffer guessed; and
when sniffing failed (`none`) and the heuristic does not fire, the
delimiter defaults to comma. -/
theorem claim_c3 (sniffed : Option Char) (decoded : String) :
    (countChar ',' (headerLine decoded) < countChar ';' (headerLine decoded) →
      chooseDelimiter sniffed decoded = ';') ∧
    (sniffed = none →
      ¬countChar ',' (headerLine decoded) < countChar ';' (headerLine decoded) →
      chooseDelimiter sniffed decoded = ',') := by
  constructor
  · intro h
    simp [chooseDelimiter, h]
  · intro hs h
    subst hs
    simp [chooseDelimiter, h]

/-- Witness for C3: a semicolon-delimited header overrides a comma sniff,
and a comma default is used when the sniffer raised on a comma header. -/
theorem claim_c3_witness :
    chooseDelimiter (some ',') "a;b;c\n1;2;3" = ';' ∧
    chooseDelimiter none "a,b\n1,2" = ',' :=
  ⟨(claim_c3 (some ',') "a;b;c\n1;2;3").1 (by decide),
   (claim_c3 none "a,b\n1,2").2 rfl (by decide)⟩

/-! ## Workbook parser lemmas and claims C2, C4, C7 -/

theorem excelPhase1_foldl (sheets : List (String × Except String Frame))
    (sd : List (String × Frame)) (errs : List String) :
    sheets.foldl excelPhase1Step (sd, errs) =
      (sd ++ goodData sheets, errs ++ sheetErrors sheets) := by
  induction sheets generalizing sd errs with
  | nil => simp [goodData, sheetErrors]
  | cons s ss ih =>
    obtain ⟨nm, ex⟩ := s
    cases ex with
    | error msg =>
      rw [List.foldl_cons]
      have hstep : excelPhase1Step (sd, errs) (nm, Except.error msg) =
          (sd, errs ++ ["Error parsing sheet \x27" ++ nm ++ "\x27: " ++ msg]) := rfl
      rw [hstep, ih]
      simp [goodData, sheetErrors]
    | ok df =>
      rw [List.foldl_cons]
      by_cases h : frameEmpty df
      · have hstep : excelPhase1Step (sd, errs) (nm, Except.ok df) = (sd, errs) := by
          simp [excelPhase1Step, h]
        rw [hstep, ih]
        simp [goodData, sheetErrors, h]
      · have hstep : excelPhase1Step (sd, errs) (nm, Except.ok df) =
            (sd ++ [(nm, cleanFrame df)], errs) := by
          simp [excelPhase1Step, h]
        rw [hstep, ih]
        simp [goodData, sheetErrors, h]

theorem excelPhase1_eq (sheets : List (String × Except String Frame)) :
    excelPhase1 sheets = (goodData sheets, sheetErrors sheets) := by
  rw [excelPhase1, excelPhase1_foldl]
  simp

theorem sheetErrors_ok_nil {l : List (String × Except String Frame)}
    (h : ∀ s ∈ l, sheetOk s) : sheetErrors l = [] := by
  induction l with
  | nil => rfl
  | cons s ss ih =>
    obtain ⟨f, hf⟩ := h s (List.mem_cons_self _ _)
    have ih' := ih (fun x hx => h x (List.mem_cons_of_mem _ hx))
    simp [sheetErrors, List.filterMap_cons, hf] at ih' ⊢
    exact ih'

theorem goodData_append (l1 l2 : List (String × Except String Frame)) :
    goodData (l1 ++ l2) = goodData l1 ++ goodData l2 := by
  simp [goodData, List.filterMap_append]

theorem sheetErrors_append (l1 l2 : List (String × Except String Frame)) :
    sheetErrors (l1 ++ l2) = sheetErrors l1 ++ sheetErrors l2 := by
  simp [sheetErrors, List.filterMap_append]

/-- C2: one raising sheet in a workbook yields exactly one error entry
naming that sheet; its data is excluded, and `sheets_info` and
`data_by_type` equal those of the same workbook without the bad sheet. -/
theorem claim_c2 (pre post : List (String × Except String Frame)) (name msg : String)
    (hpre : ∀ s ∈ pre, sheetOk s) (hpost : ∀ s ∈ post, sheetOk s) :
    (parseExcel (pre ++ (name, Except.error msg) :: post)).errors =
      ["Error parsing sheet \x27" ++ name ++ "\x27: " ++ msg] ∧
    (parseExcel (pre ++ (name, Except.error msg) :: post)).sheets_info =
      (parseExcel (pre ++ post)).sheets_info ∧
    (parseExcel (pre ++ (name, Except.error msg) :: post)).data_by_type =
      (parseExcel (pre ++ post)).data_by_type := by
  have hgd : goodData (pre ++ (name, Except.error msg) :: post) = goodData (pre ++ post) := by
    rw [show (name, Except.error msg) :: post =
        [(name, (Except.error msg : Except String Frame))] ++ post from rfl]
    rw [goodData_append, goodData_append, goodData_append]
    simp [goodData]
  have herr : sheetErrors (pre ++ (name, Except.error msg) :: post) =
      ["Error parsing sheet \x27" ++ name ++ "\x27: " ++ msg] := by
    rw [show (name, Except.error msg) :: post =
        [(name, (Except.error msg : Except String Frame))] ++ post from rfl]
    rw [sheetErrors_append, sheetErrors_append]
    rw [sheetErrors_ok_nil hpre, sheetErrors_ok_nil hpost]
    simp [sheetErrors]
  refine ⟨?_, ?_, ?_⟩
  · show (excelPhase1 _).2 = _
    rw [excelPhase1_eq]
    exact herr
  · show (excelPhase2 (excelPhase1 _).1).1 = (excelPhase2 (excelPhase1 _).1).1
    rw [excelPhase1_eq, excelPhase1_eq]
    simp only [hgd]
  · show (excelPhase2 (excelPhase1 _).1).2 = (excelPhase2 (excelPhase1 _).1).2
    rw [excelPhase1_eq, excelPhase1_eq]
    simp only [hgd]


theorem frameRecords_cleanFrame_length (f : Frame) :
    (frameRecords (cleanFrame f)).length = f.rows.length := by
  simp [frameRecords, cleanFrame]

/-- Witness for C2: a workbook with one good book sheet and one raising
sheet yields exactly that sheet's error entry and the same grouped data
as the workbook without it. -/
theorem claim_c2_witness :
    (parseExcel [("S1", Except.ok (Frame.mk ["title"] [["x"]])),
        ("Bad", Except.error "boom")]).errors =
      ["Error parsing sheet \x27Bad\x27: boom"] ∧
    (parseExcel [("S1", Except.ok (Frame.mk ["title"] [["x"]])),
        ("Bad", Except.error "boom")]).data_by_type =
      (parseExcel [("S1", Except.ok (Frame.mk ["title"] [["x"]]))]).data_by_type := by
  have h := claim_c2 [("S1", Except.ok (Frame.mk ["title"] [["x"]]))] [] "Bad" "boom"
    (by
      intro s hs
      rw [List.mem_singleton] at hs
      subst hs
      exact ⟨_, rfl⟩)
    (by
      intro s hs
      cases hs)
  exact ⟨h.1, h.2.2⟩

/-- C4: two sheets both classified as "book" merge into one concatenated
"book" record list, in sheet order, whose length is the sum of the two
sheets' row counts. -/
theorem claim_c4 (n1 n2 : String) (f1 f2 : Frame) (c1 c2 : ℚ)
    (he1 : frameEmpty f1 = false) (he2 : frameEmpty f2 = false)
    (hd1 : detectSheetType (cleanFrame f1).cols = some ("book", c1))
    (hd2 : detectSheetType (cleanFrame f2).cols = some ("book", c2)) :
    (parseExcel [(n1, Except.ok f1), (n2, Except.ok f2)]).data_by_type =
      [("book", frameRecords (cleanFrame f1) ++ frameRecords (cleanFrame f2))] ∧
    ((parseExcel [(n1, Except.ok f1), (n2, Except.ok f2)]).data_by_type.lookup
        "book").map List.length = some (f1.rows.length + f2.rows.length) := by
  have h1 : excelPhase1 [(n1, Except.ok f1), (n2, Except.ok f2)] =
      ([(n1, cleanFrame f1), (n2, cleanFrame f2)], []) := by
    rw [excelPhase1_eq]
    simp [goodData, sheetErrors, List.filterMap_cons, he1, he2]
  have h2 : (parseExcel [(n1, Except.ok f1), (n2, Except.ok f2)]).data_by_type =
      [("book", frameRecords (cleanFrame f1) ++ frameRecords (cleanFrame f2))] := by
    show (excelPhase2 (excelPhase1 _).1).2 = _
    rw [h1]
    simp [excelPhase2, excelPhase2Step, hd1, hd2, extendAt]
  refine ⟨h2, ?_⟩
  rw [h2]
  simp [List.lookup, frameRecords_cleanFrame_length]

theorem goodData_rows_pos {sheets : List (String × Except String Frame)}
    {p : String × Frame} (hp : p ∈ goodData sheets) : 1 ≤ p.2.rows.length := by
  obtain ⟨pn, pf⟩ := p
  obtain ⟨s, _hs, heq⟩ := List.mem_filterMap.mp hp
  obtain ⟨nm, ex⟩ := s
  cases ex with
  | error msg => simp at heq
  | ok df =>
    by_cases hfe : frameEmpty df
    · simp [hfe] at heq
    · simp [hfe] at heq
      have hnil : df.rows ≠ [] := by
        intro hnil
        apply hfe
        simp [frameEmpty, hnil]
      have hlen : pf.rows.length = df.rows.length := by
        rw [← heq.2]
        simp [cleanFrame]
      simpa [hlen] using List.length_pos.mpr hnil


theorem excelPhase2_foldl (sd : List (String × Frame))
    (acc : List SheetInfo × List (String × List ImportRecord)) :
    (sd.foldl excelPhase2Step acc).1 = acc.1 ++ sd.map sheetInfoOf := by
  induction sd generalizing acc with
  | nil => simp
  | cons nf rest ih =>
    rw [List.foldl_cons, ih]
    simp [excelPhase2Step]

/-- C7 (amended): every `sheets_info` entry emitted by the workbook
parser reports at least one data row (empty sheets are skipped), while
the delimited-text parser emits its single table regardless of row count:
a header-only CSV yields a "book" table with zero rows. -/
theorem claim_c7 :
    (∀ (sheets : List (String × Except String Frame)),
      ∀ info ∈ (parseExcel sheets).sheets_info, 1 ≤ info.rows) ∧
    ((parseCsv (some ',')
        (asciiBytes "title,cost,suggested_retail_price,condition\n")).toOption.map
      (fun r => r.sheets_info.map SheetInfo.rows)) = some [0] := by
  constructor
  · intro sheets info hinfo
    have : (parseExcel sheets).sheets_info = (goodData sheets).map sheetInfoOf := by
      show (excelPhase2 (excelPhase1 sheets).1).1 = _
      rw [excelPhase1_eq]
      rw [excelPhase2, excelPhase2_foldl]
      rfl
    rw [this] at hinfo
    obtain ⟨p, hp, hpe⟩ := List.mem_map.mp hinfo
    rw [← hpe]
    exact goodData_rows_pos hp
  · decide

/-- Counterexample to C7 as stated: the delimited-text parser emits a
table with zero data rows for a header-only CSV instead of dropping it. -/
theorem claim_c7_cex :
    ((parseCsv (some ';')
        (asciiBytes "title;cost;suggested_retail_price;condition\n")).toOption.map
      (fun r => r.sheets_info.map SheetInfo.rows)) = some [0] := by
  decide

/-- Witness for C7: a one-row workbook sheet yields a `sheets_info` entry
with one row. -/
theorem claim_c7_witness :
    1 ≤ (SheetInfo.mk "S" (some "book") 1 ["title"]).rows :=
  claim_c7.1 [("S", Except.ok (Frame.mk ["title"] [["x"]]))] _ (by decide)


/-- Witness for C4: a one-row and a two-row book sheet merge into one
three-record "book" list. -/
theorem claim_c4_witness :
    ((parseExcel
        [("S1", Except.ok (Frame.mk
            ["title", "cost", "suggested_retail_price", "condition"]
            [["a", "1", "2", "good"]])),
         ("S2", Except.ok (Frame.mk
            ["title", "cost", "suggested_retail_price", "condition"]
            [["b", "3", "4", "fair"], ["c", "5", "6", "poor"]]))]).data_by_type.lookup
      "book").map List.length = some 3 := by
  have h := (claim_c4 "S1" "S2"
    (Frame.mk ["title", "cost", "suggested_retail_price", "condition"]
      [["a", "1", "2", "good"]])
    (Frame.mk ["title", "cost", "suggested_retail_price", "condition"]
      [["b", "3", "4", "fair"], ["c", "5", "6", "poor"]])
    1 1 (by decide) (by decide) (by decide) (by decide)).2
  simpa using h


/-! ## Byte-decoding lemmas and claim C6 -/

set_option maxHeartbeats 1000000 in
theorem utf8DecodeChars_some_nil {bs : List Nat}
    (h : utf8DecodeChars bs = some []) : bs = [] := by
  cases bs with
  | nil => rfl
  | cons b rest =>
    exfalso
    rw [utf8DecodeChars.eq_def] at h
    repeat' split at h
    all_goals simp_all

theorem utf8Codec_some_empty {bs : List Nat} (h : utf8Codec bs = some "") :
    bs = [] := by
  rw [utf8Codec] at h
  rw [Option.map_eq_some'] at h
  obtain ⟨l, hl, hs⟩ := h
  have hnil : l = [] := congrArg String.data hs
  exact utf8DecodeChars_some_nil (hnil ▸ hl)

theorem latin1Codec_total {bs : List Nat} (hb : ∀ b ∈ bs, b < 256) :
    latin1Codec bs = some (String.mk (bs.map Char.ofNat)) := by
  simp [latin1Codec, List.all_eq_true]
  intro x hx
  exact hb x hx

/-- C6 (amended): the decode stage tries the codecs in order and uses
the first success (a non-empty UTF-8 decode is final); the explicit
decoding error occurs iff the decoded text is falsy — since latin-1
accepts every byte sequence, that happens exactly for an empty file, and
a codec-exhaustion failure is unreachable. -/
theorem claim_c6 :
    (∀ (content : List Nat) (s : String), utf8Codec content = some s → s ≠ "" →
      decodeCsvContent content = Except.ok s) ∧
    (∀ content : List Nat, (∀ b ∈ content, b < 256) →
      (decodeCsvContent content =
          Except.error "Could not decode CSV file with common encodings" ↔
        content = [])) := by
  constructor
  · intro content s hu hs
    rw [decodeCsvContent]
    have ht : tryDecode csvEncodings content = some s := by
      simp [csvEncodings, tryDecode, hu]
    rw [ht]
    simp [hs]
  · intro content hb
    constructor
    · intro h
      rw [decodeCsvContent] at h
      cases htry : tryDecode csvEncodings content with
      | none =>
        exfalso
        have hl := latin1Codec_total hb
        cases hu : utf8Codec content with
        | some s => simp [csvEncodings, tryDecode, hu] at htry
        | none => simp [csvEncodings, tryDecode, hu, hl] at htry
      | some s =>
        rw [htry] at h
        by_cases hse : s = ""
        · subst hse
          cases hu : utf8Codec content with
          | some s' =>
            have hse' : s' = "" := by
              simp [csvEncodings, tryDecode, hu] at htry
              exact htry
            exact utf8Codec_some_empty (hse' ▸ hu)
          | none =>
            have hl := latin1Codec_total hb
            have hmk : String.mk (content.map Char.ofNat) = "" := by
              simp [csvEncodings, tryDecode, hu, hl] at htry
              exact htry
            have hmap : content.map Char.ofNat = [] := congrArg String.data hmk
            exact List.map_eq_nil_iff.mp hmap
        · simp [hse] at h
    · intro h
      subst h
      rfl

/-- Counterexample to C6 as stated: on the empty byte stream the first
codec (UTF-8) succeeds, decoding to the empty text, yet the parse fails
with the explicit decoding error — so "fails iff no codec succeeds" is
false in the only-if direction. -/
theorem claim_c6_cex :
    utf8Codec [] = some "" ∧
    decodeCsvContent [] =
      Except.error "Could not decode CSV file with common encodings" :=
  ⟨rfl, rfl⟩

/-- Witness for C6: a one-byte file decodes via UTF-8 and parses, and the
empty file hits the decoding error. -/
theorem claim_c6_witness :
    decodeCsvContent (asciiBytes "x") = Except.ok "x" ∧
    decodeCsvContent [] =
      Except.error "Could not decode CSV file with common encodings" :=
  ⟨claim_c6.1 (asciiBytes "x") "x" (by decide) (by decide),
   (claim_c6.2 [] (by decide)).mpr rfl⟩


/-! ## Value-normalizer lemmas and claim C8 -/

theorem pyStripChars_fix (l : List Char) :
    List.rdropWhile isPySpace (List.dropWhile isPySpace
        (List.rdropWhile isPySpace (List.dropWhile isPySpace l))) =
      List.rdropWhile isPySpace (List.dropWhile isPySpace l) := by
  set z := List.dropWhile isPySpace l with hz
  have hzfix : List.dropWhile isPySpace z = z := by
    rw [hz]
    exact List.dropWhile_idempotent _ _
  have hstep : List.dropWhile isPySpace (List.rdropWhile isPySpace z) =
      List.rdropWhile isPySpace z := by
    rw [List.dropWhile_eq_self_iff]
    intro hl
    have hpre := List.rdropWhile_prefix isPySpace z
    have hlen : 0 < z.length :=
      lt_of_lt_of_le hl hpre.length_le
    have hget := hpre.getElem (n := 0) hl
    have hz0 : ¬isPySpace (z.get ⟨0, hlen⟩) := by
      have := List.dropWhile_eq_self_iff.mp hzfix hlen
      exact this
    simp only [List.get_eq_getElem] at hz0 ⊢
    rw [← hget] at hz0
    exact hz0
  rw [hstep, List.rdropWhile_idempotent]

theorem pyStrip_idem (s : String) : pyStrip (pyStrip s) = pyStrip s :=
  congrArg String.mk (pyStripChars_fix s.toList)

theorem pyIntOfString_strip (s : String) :
    pyIntOfString (pyStrip s) = pyIntOfString s := by
  rw [pyIntOfString, pyIntOfString, pyStrip_idem]

theorem pyDecimalOfString_strip (s : String) :
    pyDecimalOfString (pyStrip s) = pyDecimalOfString s := by
  rw [pyDecimalOfString, pyDecimalOfString, pyStrip_idem]


theorem pyIntOf_vstr_not_overflow (s m : String) :
    pyIntOf (PyVal.vstr s) ≠ IntCoerce.overflow m := by
  intro h
  have h' : (match pyIntOfString s with
      | some n => IntCoerce.ok n
      | none => IntCoerce.caught) = IntCoerce.overflow m := h
  cases hp : pyIntOfString s with
  | some n => rw [hp] at h'; cases h'
  | none => rw [hp] at h'; cases h'

theorem pyIntOf_vstr_strip {s : String}
    (h : pyIntOf (PyVal.vstr s) = IntCoerce.caught) :
    pyIntOf (PyVal.vstr (pyStrip s)) = IntCoerce.caught := by
  have hs : pyIntOfString s = none := by
    cases hp : pyIntOfString s with
    | none => rfl
    | some n =>
      have h' : (match pyIntOfString s with
          | some n => IntCoerce.ok n
          | none => IntCoerce.caught) = IntCoerce.caught := h
      rw [hp] at h'
      cases h'
  show (match pyIntOfString (pyStrip s) with
      | some n => IntCoerce.ok n
      | none => IntCoerce.caught) = IntCoerce.caught
  rw [pyIntOfString_strip, hs]

theorem typedClean_ok_of_ne_integer {ft : String} (hft : ¬ft = "integer")
    (v : PyVal) : ∃ p, typedClean v ft = Except.ok p := by
  rw [typedClean.eq_def, if_neg hft]
  repeat' split
  all_goals exact ⟨_, rfl⟩

theorem cleanValue_ok_of_ne_integer {ft : String} (hft : ¬ft = "integer")
    (v : PyVal) : ∃ p, cleanValue v ft = Except.ok p := by
  cases v with
  | vnone => exact ⟨_, rfl⟩
  | vstr s =>
    rw [cleanValue]
    by_cases hnull : nullTokens.contains (pyLower (pyStrip s)) = true
    · rw [if_pos hnull]
      exact ⟨_, rfl⟩
    · rw [if_neg hnull]
      by_cases hemp : pyStrip s = ""
      · rw [if_pos hemp]
        split
        · exact ⟨_, rfl⟩
        · exact ⟨_, rfl⟩
      · rw [if_neg hemp]
        exact typedClean_ok_of_ne_integer hft _
  | vint n => exact typedClean_ok_of_ne_integer hft _
  | vbool b => exact typedClean_ok_of_ne_integer hft _
  | vdec d => exact typedClean_ok_of_ne_integer hft _
  | vfloat f => exact typedClean_ok_of_ne_integer hft _

theorem cleanValue_vstr_integer_ok (s : String) :
    ∃ p, cleanValue (PyVal.vstr s) "integer" = Except.ok p := by
  rw [cleanValue]
  by_cases hnull : nullTokens.contains (pyLower (pyStrip s)) = true
  · rw [if_pos hnull]
    exact ⟨_, rfl⟩
  · rw [if_neg hnull]
    by_cases hemp : pyStrip s = ""
    · rw [if_pos hemp, if_pos (by decide :
        ("integer" : String) = "number" ∨ ("integer" : String) = "decimal" ∨
          ("integer" : String) = "integer")]
      exact ⟨_, rfl⟩
    · rw [if_neg hemp]
      rw [typedClean.eq_def, if_pos rfl]
      split
      · exact ⟨_, rfl⟩
      · cases hio : pyIntOf (PyVal.vstr (pyStrip s)) with
        | ok n => exact ⟨_, rfl⟩
        | caught => exact ⟨_, rfl⟩
        | overflow m => exact absurd hio (pyIntOf_vstr_not_overflow _ _)

/-- C8 (amended): `clean_value` returns normally for every input value
and declared type EXCEPT integer coercion of an infinite `Decimal` or
`float`: there `int()` raises `OverflowError`, which the
`except (ValueError, TypeError)` clause does not catch, so the exception
propagates (last conjunct: an error escapes iff the declared type is
"integer" and the value is an infinite Decimal/float).  A textual value
whose trimmed lowercase form is a null token yields the null sentinel for
every declared type, and a caught integer coercion failure or any decimal
coercion failure degrades to the null sentinel rather than an error. -/
theorem claim_c8 :
    (∀ (s ft : String), nullTokens.contains (pyLower (pyStrip s)) = true →
      cleanValue (PyVal.vstr s) ft = Except.ok PyVal.vnone) ∧
    (∀ v : PyVal, pyIntOf v = IntCoerce.caught →
      cleanValue v "integer" = Except.ok PyVal.vnone) ∧
    (∀ v : PyVal, pyDecimalOf v = none →
      cleanValue v "decimal" = Except.ok PyVal.vnone) ∧
    (∀ (v : PyVal) (ft : String),
      (∃ e, cleanValue v ft = Except.error e) ↔
        (ft = "integer" ∧
          ∃ b, v = PyVal.vdec (DecVal.inf b) ∨
            v = PyVal.vfloat (FloatVal.inf b))) := by
  refine ⟨?_, ?_, ?_, ?_⟩
  · intro s ft h
    rw [cleanValue, if_pos h]
  · intro v hv
    cases v with
    | vnone => rfl
    | vstr s =>
      have hps : pyIntOf (PyVal.vstr (pyStrip s)) = IntCoerce.caught :=
        pyIntOf_vstr_strip hv
      rw [cleanValue]
      by_cases hnull : nullTokens.contains (pyLower (pyStrip s)) = true
      · rw [if_pos hnull]
      · rw [if_neg hnull]
        by_cases hemp : pyStrip s = ""
        · rw [if_pos hemp, if_pos (by decide :
            ("integer" : String) = "number" ∨ ("integer" : String) = "decimal" ∨
              ("integer" : String) = "integer")]
        · rw [if_neg hemp]
          rw [typedClean.eq_def, if_pos rfl]
          split
          · rfl
          · rw [hps]
    | vbool b => simp [pyIntOf] at hv
    | vint n => simp [pyIntOf] at hv
    | vdec d =>
      cases d with
      | num q => simp [pyIntOf] at hv
      | inf neg => simp [pyIntOf] at hv
      | nan => simp [cleanValue, typedClean, pyIntOf]
      | snan => simp [cleanValue, typedClean, pyIntOf]
    | vfloat f =>
      cases f with
      | num q => simp [pyIntOf] at hv
      | inf neg => simp [pyIntOf] at hv
      | nan => simp [cleanValue, typedClean, pyIntOf]
  · intro v hv
    cases v with
    | vnone => rfl
    | vstr s =>
      have hps : pyDecimalOf (PyVal.vstr (pyStrip s)) = none := by
        show pyDecimalOfString (pyStrip s) = none
        rw [pyDecimalOfString_strip]
        exact hv
      rw [cleanValue]
      by_cases hnull : nullTokens.contains (pyLower (pyStrip s)) = true
      · rw [if_pos hnull]
      · rw [if_neg hnull]
        by_cases hemp : pyStrip s = ""
        · rw [if_pos hemp, if_pos (by decide :
            ("decimal" : String) = "number" ∨ ("decimal" : String) = "decimal" ∨
              ("decimal" : String) = "integer")]
        · rw [if_neg hemp]
          rw [typedClean.eq_def, if_neg (by decide : ¬("decimal" : String) = "integer"),
            if_pos rfl]
          split
          · rfl
          · rw [hps]
    | vbool b => simp [cleanValue, typedClean, pyDecimalOf]
    | vint n => simp [pyDecimalOf] at hv
    | vdec d => simp [pyDecimalOf] at hv
    | vfloat f => cases f <;> simp [pyDecimalOf] at hv
  · intro v ft
    constructor
    · rintro ⟨e, he⟩
      by_cases hft : ft = "integer"
      · subst hft
        refine ⟨rfl, ?_⟩
        cases v with
        | vnone => simp [cleanValue] at he
        | vstr s =>
          obtain ⟨p, hp⟩ := cleanValue_vstr_integer_ok s
          rw [hp] at he
          cases he
        | vbool b => simp [cleanValue, typedClean, pyIntOf] at he
        | vint n => simp [cleanValue, typedClean, pyIntOf] at he
        | vdec d =>
          cases d with
          | num q => simp [cleanValue, typedClean, pyIntOf] at he
          | nan => simp [cleanValue, typedClean, pyIntOf] at he
          | snan => simp [cleanValue, typedClean, pyIntOf] at he
          | inf b => exact ⟨b, Or.inl rfl⟩
        | vfloat f =>
          cases f with
          | num q => simp [cleanValue, typedClean, pyIntOf] at he
          | nan => simp [cleanValue, typedClean, pyIntOf] at he
          | inf b => exact ⟨b, Or.inr rfl⟩
      · exfalso
        obtain ⟨p, hp⟩ := cleanValue_ok_of_ne_integer hft v
        rw [hp] at he
        cases he
    · rintro ⟨hft, b, hb⟩
      subst hft
      rcases hb with hb | hb <;> subst hb
      · exact ⟨"cannot convert Infinity to integer", rfl⟩
      · exact ⟨"cannot convert float infinity to integer", rfl⟩

/-- Counterexample to C8 as stated: integer coercion of an infinite
`Decimal` (or `float`) raises the uncaught `OverflowError` instead of
returning normally — `clean_value` is not total, refuting "never raises:
for every input value and declared type, it returns normally". -/
theorem claim_c8_cex :
    cleanValue (PyVal.vdec (DecVal.inf false)) "integer" =
      Except.error "cannot convert Infinity to integer" ∧
    cleanValue (PyVal.vfloat (FloatVal.inf false)) "integer" =
      Except.error "cannot convert float infinity to integer" :=
  ⟨rfl, rfl⟩

/-- Witness for C8: the token " N/A " collapses to the null sentinel for
a text field, "abc" fails integer coercion and "1.2.3" fails decimal
coercion (both degrading to the null sentinel), and negative Decimal
infinity under "integer" escapes as an error. -/
theorem claim_c8_witness :
    cleanValue (PyVal.vstr " N/A ") "text" = Except.ok PyVal.vnone ∧
    cleanValue (PyVal.vstr "abc") "integer" = Except.ok PyVal.vnone ∧
    cleanValue (PyVal.vstr "1.2.3") "decimal" = Except.ok PyVal.vnone ∧
    ∃ e, cleanValue (PyVal.vdec (DecVal.inf true)) "integer" = Except.error e :=
  ⟨claim_c8.1 " N/A " "text" (by decide),
   claim_c8.2.1 (PyVal.vstr "abc") (by decide),
   claim_c8.2.2.1 (PyVal.vstr "1.2.3") (by decide),
   (claim_c8.2.2.2 (PyVal.vdec (DecVal.inf true)) "integer").mpr
     ⟨rfl, true, Or.inl rfl⟩⟩

/-! ## XML flattening lemmas and claim C9 -/

theorem mem_keys_dictInsert_self (l : List (String × FlatVal)) (k : String)
    (v : FlatVal) : k ∈ (dictInsert l k v).map Prod.fst := by
  induction l with
  | nil => simp [dictInsert]
  | cons p rest ih =>
    rw [dictInsert]
    by_cases hk : p.1 = k
    · obtain ⟨pk, pv⟩ := p
      simp only at hk
      simp [hk]
    · obtain ⟨pk, pv⟩ := p
      simp only at hk
      simp only [hk, if_false, List.map_cons, List.mem_cons]
      exact Or.inr ih

theorem mem_keys_dictInsert_of_mem {l : List (String × FlatVal)} {k' : String}
    (h : k' ∈ l.map Prod.fst) (k : String) (v : FlatVal) :
    k' ∈ (dictInsert l k v).map Prod.fst := by
  induction l with
  | nil => cases h
  | cons p rest ih =>
    obtain ⟨pk, pv⟩ := p
    rw [List.map_cons, List.mem_cons] at h
    rw [dictInsert]
    by_cases hk : pk = k
    · simp only [hk, if_true]
      rcases h with h | h
      · simp [← hk, h]
      · simp [h]
    · simp only [hk, if_false, List.map_cons, List.mem_cons]
      rcases h with h | h
      · exact Or.inl h
      · exact Or.inr (ih h)

theorem insertAll_cons (base : List (String × FlatVal))
    (q : String × FlatVal) (rest : List (String × FlatVal)) :
    insertAll base (q :: rest) = insertAll (dictInsert base q.1 q.2) rest := rfl

theorem insertAll_keys_sub {base : List (String × FlatVal)} {k' : String}
    (pairs : List (String × FlatVal)) (h : k' ∈ base.map Prod.fst) :
    k' ∈ (insertAll base pairs).map Prod.fst := by
  induction pairs generalizing base with
  | nil => exact h
  | cons p rest ih =>
    rw [insertAll_cons]
    exact ih (mem_keys_dictInsert_of_mem h p.1 p.2)

theorem insertAll_keys_mem {pairs : List (String × FlatVal)}
    {p : String × FlatVal} (hp : p ∈ pairs) (base : List (String × FlatVal)) :
    p.1 ∈ (insertAll base pairs).map Prod.fst := by
  induction pairs generalizing base with
  | nil => cases hp
  | cons q rest ih =>
    rw [List.mem_cons] at hp
    rw [insertAll_cons]
    rcases hp with hp | hp
    · subst hp
      exact insertAll_keys_sub rest (mem_keys_dictInsert_self base p.1 p.2)
    · exact ih hp (dictInsert base q.1 q.2)

theorem childPairs_key_mem {children : List XmlElem} {c : XmlElem}
    (h : c ∈ children) :
    ∃ v, (normKey c.tag, v) ∈ childPairs children := by
  induction children with
  | nil => cases h
  | cons c' rest ih =>
    rw [List.mem_cons] at h
    rcases h with h | h
    · subst h
      refine ⟨if c.children.isEmpty then FlatVal.str (cleanChildText (c.text.getD ""))
        else FlatVal.node (xmlElementToDict c), ?_⟩
      rw [childPairs]
      exact List.mem_cons_self _ _
    · obtain ⟨v, hv⟩ := ih h
      refine ⟨v, ?_⟩
      rw [childPairs]
      exact List.mem_cons_of_mem _ hv


theorem xmlElementToDict_mk (tag : String) (attrs : List (String × String))
    (children : List XmlElem) (text : Option String) :
    xmlElementToDict (XmlElem.mk tag attrs children text) =
      (if (insertAll (insertAll []
            (attrs.map (fun kv => (normKey kv.1, FlatVal.str kv.2))))
          (childPairs children)).isEmpty then
        match text with
        | some t => if t ≠ "" then [("value", FlatVal.str (pyStrip t))] else []
        | none => []
      else
        insertAll (insertAll []
            (attrs.map (fun kv => (normKey kv.1, FlatVal.str kv.2))))
          (childPairs children)) := by
  rw [xmlElementToDict.eq_def]

/-- C9: the concrete customer element flattens to exactly the record
{id = "1", status = "active", first_name = "Alice"}; a text-only child
with null-like text flattens to the empty string; and in general every
attribute contributes a field keyed by its lower-cased,
hyphen-to-underscore-normalized name, and every child element contributes
a field keyed by its normalized tag. -/
theorem claim_c9 :
    xmlElementToDict (XmlElem.mk "customer" [("id", "1"), ("status", "active")]
        [XmlElem.mk "first_name" [] [] (some "Alice")] none) =
      [("id", FlatVal.str "1"), ("status", FlatVal.str "active"),
       ("first_name", FlatVal.str "Alice")] ∧
    xmlElementToDict (XmlElem.mk "book" []
        [XmlElem.mk "death-Year" [] [] (some " null ")] none) =
      [("death_year", FlatVal.str "")] ∧
    (∀ (tag : String) (attrs : List (String × String)) (children : List XmlElem)
        (text : Option String) (k v : String), (k, v) ∈ attrs →
      normKey k ∈
        (xmlElementToDict (XmlElem.mk tag attrs children text)).map Prod.fst) ∧
    (∀ (tag : String) (attrs : List (String × String)) (children : List XmlElem)
        (text : Option String) (c : XmlElem), c ∈ children →
      normKey c.tag ∈
        (xmlElementToDict (XmlElem.mk tag attrs children text)).map Prod.fst) := by
  refine ⟨rfl, rfl, ?_, ?_⟩
  · intro tag attrs children text k v hkv
    rw [xmlElementToDict_mk]
    have hk : normKey k ∈ (insertAll []
        (attrs.map (fun kv => (normKey kv.1, FlatVal.str kv.2)))).map Prod.fst := by
      have hm : (normKey k, FlatVal.str v) ∈
          attrs.map (fun kv => (normKey kv.1, FlatVal.str kv.2)) :=
        List.mem_map_of_mem _ hkv
      exact insertAll_keys_mem hm []
    have hr : normKey k ∈ (insertAll (insertAll []
        (attrs.map (fun kv => (normKey kv.1, FlatVal.str kv.2))))
        (childPairs children)).map Prod.fst :=
      insertAll_keys_sub _ hk
    have hne : (insertAll (insertAll []
        (attrs.map (fun kv => (normKey kv.1, FlatVal.str kv.2))))
        (childPairs children)).isEmpty = false := by
      cases hrr : insertAll (insertAll []
          (attrs.map (fun kv => (normKey kv.1, FlatVal.str kv.2))))
          (childPairs children) with
      | nil => rw [hrr] at hr; cases hr
      | cons a b => rfl
    rw [if_neg (by simp [hne])]
    exact hr
  · intro tag attrs children text c hc
    rw [xmlElementToDict_mk]
    obtain ⟨v, hv⟩ := childPairs_key_mem hc
    have hr : normKey c.tag ∈ (insertAll (insertAll []
        (attrs.map (fun kv => (normKey kv.1, FlatVal.str kv.2))))
        (childPairs children)).map Prod.fst :=
      insertAll_keys_mem hv _
    have hne : (insertAll (insertAll []
        (attrs.map (fun kv => (normKey kv.1, FlatVal.str kv.2))))
        (childPairs children)).isEmpty = false := by
      cases hrr : insertAll (insertAll []
          (attrs.map (fun kv => (normKey kv.1, FlatVal.str kv.2))))
          (childPairs children) with
      | nil => rw [hrr] at hr; cases hr
      | cons a b => rfl
    rw [if_neg (by simp [hne])]
    exact hr

/-- Witness for C9: attribute "ID" of a concrete element appears under
the normalized key "id", and child tag "Phone-Number" appears under
"phone_number". -/
theorem claim_c9_witness :
    "id" ∈ (xmlElementToDict (XmlElem.mk "customer" [("ID", "7")]
        [XmlElem.mk "Phone-Number" [] [] (some "555")] none)).map Prod.fst ∧
    "phone_number" ∈ (xmlElementToDict (XmlElem.mk "customer" [("ID", "7")]
        [XmlElem.mk "Phone-Number" [] [] (some "555")] none)).map Prod.fst :=
  ⟨claim_c9.2.2.1 "customer" [("ID", "7")]
      [XmlElem.mk "Phone-Number" [] [] (some "555")] none "ID" "7"
      (List.mem_cons_self _ _),
   claim_c9.2.2.2 "customer" [("ID", "7")]
      [XmlElem.mk "Phone-Number" [] [] (some "555")] none
      (XmlElem.mk "Phone-Number" [] [] (some "555")) (List.mem_cons_self _ _)⟩

/-! ## Error-accumulator lemmas and claim C10 -/

theorem applyOps_counts (ops : List HandlerOp) (h : ImportErrorHandler) :
    (applyOps h ops).success_count =
        h.success_count + (ops.filter isOpSuccess).length ∧
    (applyOps h ops).failed_count = h.failed_count + (ops.filter isOpError).length ∧
    (applyOps h ops).errors.length = h.errors.length + (ops.filter isOpError).length := by
  induction ops generalizing h with
  | nil => simp [applyOps]
  | cons op rest ih =>
    have hstep : applyOps h (op :: rest) = applyOps (applyOp h op) rest := rfl
    rw [hstep]
    obtain ⟨i1, i2, i3⟩ := ih (applyOp h op)
    cases op with
    | opError row f m =>
      refine ⟨?_, ?_, ?_⟩
      · rw [i1]
        simp [applyOp, addError, isOpSuccess, List.filter_cons]
      · rw [i2]
        simp [applyOp, addError, isOpError, List.filter_cons]
        omega
      · rw [i3]
        simp [applyOp, addError, isOpError, List.filter_cons]
        omega
    | opWarning row f m =>
      refine ⟨?_, ?_, ?_⟩
      · rw [i1]
        simp [applyOp, addWarning, isOpSuccess, List.filter_cons]
      · rw [i2]
        simp [applyOp, addWarning, isOpError, List.filter_cons]
      · rw [i3]
        simp [applyOp, addWarning, isOpError, List.filter_cons]
    | opSuccess =>
      refine ⟨?_, ?_, ?_⟩
      · rw [i1]
        simp [applyOp, recordSuccess, isOpSuccess, List.filter_cons]
        omega
      · rw [i2]
        simp [applyOp, recordSuccess, isOpError, List.filter_cons]
      · rw [i3]
        simp [applyOp, recordSuccess, isOpError, List.filter_cons]

/-- C10: after any run of handler calls from a fresh (or cleared)
handler, `total_processed = successful + failed`, where `successful`
counts the `record_success` calls and `failed` counts the `add_error`
calls — one per error entry, not per distinct failed row, as `failed`
always equals the number of error entries; `add_warning` changes none of
the three counters, and `clear` restores the initial state. -/
theorem claim_c10 :
    (∀ ops : List HandlerOp,
      (getSummary (applyOps initHandler ops)).total_processed =
        (getSummary (applyOps initHandler ops)).successful +
          (getSummary (applyOps initHandler ops)).failed ∧
      (getSummary (applyOps initHandler ops)).successful =
        (ops.filter isOpSuccess).length ∧
      (getSummary (applyOps initHandler ops)).failed =
        (ops.filter isOpError).length ∧
      (getSummary (applyOps initHandler ops)).failed =
        (getSummary (applyOps initHandler ops)).errors.length) ∧
    (∀ (h : ImportErrorHandler) (row : ℤ) (f m : String),
      (getSummary (addWarning h row f m)).total_processed =
          (getSummary h).total_processed ∧
      (getSummary (addWarning h row f m)).successful = (getSummary h).successful ∧
      (getSummary (addWarning h row f m)).failed = (getSummary h).failed) ∧
    (∀ h : ImportErrorHandler, clearHandler h = initHandler) := by
  refine ⟨?_, ?_, ?_⟩
  · intro ops
    obtain ⟨i1, i2, i3⟩ := applyOps_counts ops initHandler
    refine ⟨rfl, ?_, ?_, ?_⟩
    · simp only [getSummary]
      rw [i1]
      simp [initHandler]
    · simp only [getSummary]
      rw [i2]
      simp [initHandler]
    · simp only [getSummary]
      rw [i2, i3]
      simp [initHandler]
  · intro h row f m
    exact ⟨rfl, rfl, rfl⟩
  · intro h
    rfl

end BookShop
